import Mathlib

/-!
Verification of the batched forward-decode engine of the `max` repository
(`src/max/nn/transformer/transformer.py`, the Qwen2.5VL decoder in
`src/max/pipelines/architectures/qwen2_5vl/nn/decoder.py`, and the Llama3
build logic in `src/max/pipelines/architectures/llama3/llama3.py`).

Tensors are shallowly embedded: a rank-1 integer tensor is a `List Int`,
a rank-2 floating tensor is a `List (List Rat)` (rows of exact rationals;
`ops.cast(_, float32)` is modelled as the identity on exact values).
Row-wise layers (RMSNorm, Linear/lm_head, MLP) are modelled as per-row
functions lifted with `List.map`; attention, which mixes rows, is kept as
an abstract function of the whole hidden-state tensor, the cache
collection and the per-call kwargs.
-/

/-- One row of a rank-2 tensor: exact rational entries. -/
abbrev Vec := List ℚ

/-- Rank-1 integer tensor (row offsets, cache lengths, gather indices). -/
abbrev Tensor1 := List Int

/-- Rank-2 tensor as a list of rows. -/
abbrev Tensor2 := List Vec

/-- The KV cache collection is opaque to the decode engine; the engine only
builds it from the raw cache inputs and threads it through the layers.  We
model it as the list of raw rank-1 inputs it was built from. -/
abbrev KVCollection := List Tensor1

/-- `ops.range(start, stop, step)`: the arithmetic progression from `start`
with increment `step`, of length `ceil((stop - start) / step)` (empty for
`step = 0`).  Models the `ops.range` calls in `Transformer.__call__` and
`Qwen2_5VLRotaryEmbedding._compute_inv_freqs`. -/
def rangeInt (start stop step : Int) : List Int :=
  if 0 < step then
    (List.range (((stop - start).toNat + (step.toNat - 1)) / step.toNat)).map
      (fun (i : Nat) => start + step * (i : Int))
  else if step < 0 then
    (List.range (((start - stop).toNat + ((-step).toNat - 1)) / (-step).toNat)).map
      (fun (i : Nat) => start + step * (i : Int))
  else []

/-- `ops.gather(h, indices, axis=0)`: select rows of `h` at the given
indices.  Out-of-range rows are modelled by the default `[]` (the real
graph op reads unspecified memory there; no error is raised). -/
def gather (h : Tensor2) (indices : List Int) : Tensor2 :=
  indices.map (fun i => h.getD i.toNat [])

/-- Elementwise multiplication of a tensor by a broadcast scalar constant,
as in `attn_out * residual_multiplier` and `h * ops.constant(...)`. -/
def scale (c : ℚ) (t : Tensor2) : Tensor2 :=
  t.map (fun row => row.map (fun x => x * c))

/-- Elementwise addition of two same-shaped rank-2 tensors (`x + attn_out`,
`h + mlp`). -/
def add2 (a b : Tensor2) : Tensor2 :=
  List.zipWith (List.zipWith (fun x y => x + y)) a b

/-- The kwargs bundle threaded into every decoder layer:
`kwargs["input_row_offsets"]` as supplied by the caller and
`kwargs["context_lengths"]` as injected by `Transformer.__call__`. -/
structure LayerKwargs where
  input_row_offsets : Tensor1
  context_lengths : Tensor1
deriving DecidableEq

/-- The `ReturnLogits` enumeration of `transformer.py`. -/
inductive ReturnLogits where
  | LAST_TOKEN
  | VARIABLE
  | ALL
deriving DecidableEq

/-- A `TransformerBlock`: attention, feed-forward and the two pre-norms,
plus the build-time residual multiplier.  `self_attn` consumes the whole
hidden state, the cache collection and the kwargs; `mlp` and the norms are
row-wise layers. -/
structure TransformerBlock where
  self_attn : Tensor2 → KVCollection → LayerKwargs → Tensor2
  mlp : Vec → Vec
  input_layernorm : Vec → Vec
  post_attention_layernorm : Vec → Vec
  residual_multiplier : ℚ

/-- `TransformerBlock.__call__`: pre-attention norm, attention, optional
residual scaling (skipped when the multiplier is exactly 1), residual add,
pre-MLP norm, feed-forward, optional scaling, residual add. -/
def TransformerBlock.call (blk : TransformerBlock) (x : Tensor2)
    (kv_collection : KVCollection) (kwargs : LayerKwargs) : Tensor2 :=
  let attn_out := blk.self_attn (x.map blk.input_layernorm) kv_collection kwargs
  let attn_out2 := if blk.residual_multiplier ≠ 1 then
    scale blk.residual_multiplier attn_out else attn_out
  let h := add2 x attn_out2
  let mlp_out := (h.map blk.post_attention_layernorm).map blk.mlp
  let mlp_out2 := if blk.residual_multiplier ≠ 1 then
    scale blk.residual_multiplier mlp_out else mlp_out
  add2 h mlp_out2

/-- Variant of `TransformerBlock.call` in which the two scaling branches
are always executed, even when the multiplier is exactly 1 (the spec's
formulation: the skip is an optimization, not a semantic difference). -/
def TransformerBlock.callScaleAlways (blk : TransformerBlock) (x : Tensor2)
    (kv_collection : KVCollection) (kwargs : LayerKwargs) : Tensor2 :=
  let attn_out := scale blk.residual_multiplier
    (blk.self_attn (x.map blk.input_layernorm) kv_collection kwargs)
  let h := add2 x attn_out
  let mlp_out := scale blk.residual_multiplier
    ((h.map blk.post_attention_layernorm).map blk.mlp)
  add2 h mlp_out

/-- The layer loop of `Transformer.__call__`: apply each block in list
order, threading the hidden state; the cache collection and kwargs are
shared by every layer. -/
def runLayers (layers : List TransformerBlock) (h : Tensor2)
    (kv_collection : KVCollection) (kwargs : LayerKwargs) : Tensor2 :=
  layers.foldl (fun acc blk => blk.call acc kv_collection kwargs) h

/-- The layer loop with the always-scale block variant. -/
def runLayersScaleAlways (layers : List TransformerBlock) (h : Tensor2)
    (kv_collection : KVCollection) (kwargs : LayerKwargs) : Tensor2 :=
  layers.foldl (fun acc blk => blk.callScaleAlways acc kv_collection kwargs) h

/-- The output tuple of `Transformer.__call__`: either `(last_logits,)` or
`(last_logits, logits, offsets)`. -/
inductive DecodeOutput where
  | last (last_logits : Tensor2)
  | full (last_logits : Tensor2) (logits : Tensor2) (offsets : Tensor1)
deriving DecidableEq

/-- `ops.cast(_, DType.float32)`: the upcast of logits to float32, modelled
as the identity on exact rational values. -/
def castFloat32 (t : Tensor2) : Tensor2 := t

/-- The `Transformer` model configuration fixed at build time
(`Transformer.__init__`). -/
structure Transformer where
  dim : Nat
  n_heads : Nat
  embed_tokens : List Int → Tensor2
  embedding_multiplier : ℚ
  layers : List TransformerBlock
  norm : Vec → Vec
  lm_head : Vec → Vec
  kv_collection_constructor : List Tensor1 → KVCollection
  return_logits : ReturnLogits
  logits_postprocessor : Option (Tensor2 → Tensor2)

/-- Lines 140-145 of `transformer.py`: embedding lookup followed by the
optional embedding-multiplier scaling (skipped when exactly 1). -/
def Transformer.inputHidden (m : Transformer) (tokens : List Int) : Tensor2 :=
  let h := m.embed_tokens tokens
  if m.embedding_multiplier ≠ 1 then scale m.embedding_multiplier h else h

/-- Lines 147-157 of `transformer.py`: read the cache-length vector from
element 1 of the raw cache inputs, compute the prompt lengths
`input_row_offsets[1:] - input_row_offsets[:-1]`, rebind them to the
cache-length shape (`none` on a length mismatch, modelling the fatal
`ops.rebind` shape check), and add to obtain the context lengths injected
into the kwargs passed to every layer. -/
def decodeKwargs (kv_cache_inputs : List Tensor1) (input_row_offsets : Tensor1) :
    Option LayerKwargs :=
  match kv_cache_inputs[1]? with
  | none => none
  | some cache_lengths =>
    let prompt_lengths :=
      List.zipWith (fun a b => a - b) input_row_offsets.tail input_row_offsets
    if prompt_lengths.length = cache_lengths.length then
      some ⟨input_row_offsets, List.zipWith (fun a b => a + b) prompt_lengths cache_lengths⟩
    else none

/-- `ops.cast(self.lm_head(self.norm(t)), DType.float32)`: the final norm
and output head applied row-wise, then the float32 upcast. -/
def Transformer.applyHead (m : Transformer) (t : Tensor2) : Tensor2 :=
  castFloat32 (t.map (fun v => m.lm_head (m.norm v)))

/-- Line 167-168 of `transformer.py`: gather the final token of each
sequence at `input_row_offsets[1:] - 1` and run it through norm + head. -/
def Transformer.lastTokenLogits (m : Transformer) (h : Tensor2)
    (input_row_offsets : Tensor1) : Tensor2 :=
  m.applyHead (gather h (input_row_offsets.tail.map (fun v => v - 1)))

/-- Lines 173-182 of `transformer.py` (VARIABLE branch): the flattened
gather indices `reshape(unsqueeze(input_row_offsets[1:], -1) -
range(return_n_logits[0], 0, -1), (-1,))`, i.e. for each sequence `i` the
ascending indices `row_offsets[i+1] - k, ..., row_offsets[i+1] - 1`. -/
def varIndices (input_row_offsets : Tensor1) (k : Int) : List Int :=
  input_row_offsets.tail.flatMap (fun e => (rangeInt k 0 (-1)).map (fun r => e - r))

/-- Lines 169-195 of `Transformer.__call__`: the policy branch producing
the optional `logits` and `offsets` tensors.  The outer `Option` is
failure (indexing `return_n_logits[0]` on an empty vector); the inner
options model the `logits = None` / `offsets = None` initialization. -/
def Transformer.extractLogits (m : Transformer) (h : Tensor2)
    (return_n_logits input_row_offsets : Tensor1) :
    Option (Option Tensor2 × Option Tensor1) :=
  match m.return_logits with
  | ReturnLogits.VARIABLE =>
    match return_n_logits[0]? with
    | none => none
    | some k =>
      let last_indices := varIndices input_row_offsets k
      let last_tokens := gather h last_indices
      let logits := m.applyHead last_tokens
      let offsets := rangeInt 0 ((last_indices.length : Int) + k) k
      some (some logits, some offsets)
  | ReturnLogits.ALL =>
    some (some (m.applyHead h), some input_row_offsets)
  | ReturnLogits.LAST_TOKEN => some (none, none)

/-- Modelled from the spec: the truthiness test `if logits:` on an optional
logits tensor.  `TensorValue` (from `max.graph`, not under `src/`) does not
override Python truthiness, and the spec directs treating logits presence
as an explicit produced-or-not boolean, so a produced tensor is truthy
regardless of its contents (also when all-zero). -/
def tensorTruthy (t : Option Tensor2) : Bool := t.isSome

/-- `Transformer._apply_logits_postprocessor` restricted to one tuple
element: the configured postprocessor if set, the identity otherwise. -/
def Transformer.postprocess1 (m : Transformer) (t : Tensor2) : Tensor2 :=
  match m.logits_postprocessor with
  | none => t
  | some f => f t

/-- Lines 166-211 of `Transformer.__call__` after the layer loop: the
last-token gather, the policy branch, the `if logits:` postprocessing
split (postprocessing `last_logits` in both branches and `logits` only
when truthy), and the final 1- or 3-tuple selection guarded by
`offsets is not None` with the `assert logits is not None`. -/
def Transformer.finishDecode (m : Transformer) (h : Tensor2)
    (return_n_logits input_row_offsets : Tensor1) : Option DecodeOutput :=
  let last_logits := m.lastTokenLogits h input_row_offsets
  match m.extractLogits h return_n_logits input_row_offsets with
  | none => none
  | some (logitsOpt, offsetsOpt) =>
    let last2 := m.postprocess1 last_logits
    let logits2 := if tensorTruthy logitsOpt then logitsOpt.map m.postprocess1 else logitsOpt
    match offsetsOpt, logits2 with
    | some offs, some lg => some (DecodeOutput.full last2 lg offs)
    | some _, none => none
    | none, _ => some (DecodeOutput.last last2)

/-- `Transformer.__call__`: embedding + multiplier, cache collection
construction, kwargs computation (fallible), the layer loop, and the
logits extraction / postprocessing epilogue. -/
def Transformer.call (m : Transformer) (tokens : List Int)
    (kv_cache_inputs : List Tensor1) (return_n_logits input_row_offsets : Tensor1) :
    Option DecodeOutput :=
  let h1 := m.inputHidden tokens
  let kv := m.kv_collection_constructor kv_cache_inputs
  match decodeKwargs kv_cache_inputs input_row_offsets with
  | none => none
  | some kw =>
    m.finishDecode (runLayers m.layers h1 kv kw) return_n_logits input_row_offsets

/-- The hidden state reaching the logits extraction: embedding (scaled),
then all layers in order. -/
def Transformer.hiddenAfterLayers (m : Transformer) (tokens : List Int)
    (kv_cache_inputs : List Tensor1) (kw : LayerKwargs) : Tensor2 :=
  runLayers m.layers (m.inputHidden tokens) (m.kv_collection_constructor kv_cache_inputs) kw

/-- `Transformer.__call__` with every scaling branch executed
unconditionally (embedding multiplier and residual multipliers applied
also when exactly 1). -/
def Transformer.callScaleAlways (m : Transformer) (tokens : List Int)
    (kv_cache_inputs : List Tensor1) (return_n_logits input_row_offsets : Tensor1) :
    Option DecodeOutput :=
  let h1 := scale m.embedding_multiplier (m.embed_tokens tokens)
  let kv := m.kv_collection_constructor kv_cache_inputs
  match decodeKwargs kv_cache_inputs input_row_offsets with
  | none => none
  | some kw =>
    m.finishDecode (runLayersScaleAlways m.layers h1 kv kw) return_n_logits input_row_offsets

/-- Valid row-offset vector for a batch whose flat hidden state has
`total` rows: starts at 0, ends at `total`, strictly increasing (every
live sequence contributes at least one token). -/
def validRowOffsets (ro : Tensor1) (total : Nat) : Prop :=
  2 ≤ ro.length ∧ ro.getD 0 0 = 0 ∧ ro.getD (ro.length - 1) 0 = (total : Int) ∧
  ∀ i, i < ro.length - 1 → ro.getD i 0 < ro.getD (i + 1) 0

instance (ro : Tensor1) (total : Nat) : Decidable (validRowOffsets ro total) := by
  unfold validRowOffsets; infer_instance

/-- Rank-3 tensor (the `[3, batch, seq]` position ids). -/
abbrev Tensor3 := List (List (List ℚ))

/-- Rank-4 tensor (the `[3, batch, seq, head_dim]` cos/sin tables). -/
abbrev Tensor4 := List (List (List (List ℚ)))

/-- The iota of `Qwen2_5VLRotaryEmbedding._compute_inv_freqs`:
`ops.range(0, n - 1, 2)` over the even indices below `head_dim`. -/
def invFreqIota (n : Nat) : List Int := rangeInt 0 ((n : Int) - 1) 2

/-- `Qwen2_5VLRotaryEmbedding.freqs_cis_base`, entrywise.  The tiled
inverse-frequency tensor `[3, batch, head_dim/2, 1]` matmul the expanded
position ids `[3, batch, 1, seq]` is the outer product
`freqs[a][b][f][s] = inv_freqs[f] * pos_ids[a][b][s]`; after
`transpose(2, 3)` the innermost vector at `[a][b][s]` is
`inv_freqs.map (· * pos_ids[a][b][s])`, which `ops.concat((freqs, freqs),
-1)` duplicates to head_dim entries before `ops.cos` / `ops.sin` are
applied elementwise.  The inverse-frequency values `theta^(-2i/head_dim)`
and the elementwise cosine and sine are irrational reals, so they enter as
parameters `inv_freqs`, `c`, `s`; the iota that sizes `inv_freqs` is
`invFreqIota`. -/
def freqs_cis_base (inv_freqs : List ℚ) (c s : ℚ → ℚ) (pos_ids : Tensor3) :
    Tensor4 × Tensor4 :=
  let emb : Tensor4 := pos_ids.map (fun axisRows => axisRows.map (fun seqRow =>
    seqRow.map (fun p =>
      let freqsRow := inv_freqs.map (fun v => v * p)
      freqsRow ++ freqsRow)))
  (emb.map (fun a => a.map (fun b => b.map (fun r => r.map c))),
   emb.map (fun a => a.map (fun b => b.map (fun r => r.map s))))

/-- The `KVCacheStrategy` enumeration as matched in `Llama3.__init__`
(the three recognized members plus `NAIVE`, a member of the real enum that
the match does not recognize). -/
inductive KVCacheStrategy where
  | CONTINUOUS
  | PAGED
  | PAGED_FA3_FALLBACK
  | NAIVE
deriving DecidableEq

/-- Quantization encodings relevant to the attention-class selection in
`Llama3.__init__`: `GPTQ` gets its own branch; any other set encoding
(e.g. the GGUF family) takes the `GGUFQAttentionWithRope` branch. -/
inductive QuantizationEncoding where
  | GPTQ
  | Q4_K
  | Q6_K
deriving DecidableEq

/-- The norm-method switch of `Llama3.__init__`. -/
inductive NormMethod where
  | rms_norm
  | layer_norm
deriving DecidableEq

/-- The fields of `Llama3Config` consulted by the construction-time checks
of `Llama3.__init__`. -/
structure Llama3Config where
  norm_method : NormMethod
  rms_norm_eps : Option ℚ
  quantization_config : Option Unit
  model_quantization_encoding : Option QuantizationEncoding
  attention_bias : Bool
  cache_strategy : KVCacheStrategy
deriving DecidableEq

/-- The attention class chosen at build time. -/
inductive AttentionVariant where
  | GPTQAttentionWithRope
  | GGUFQAttentionWithRope
  | AttentionWithRopeV2
deriving DecidableEq

/-- The KV cache collection constructor class chosen at build time. -/
inductive KVCollectionClass where
  | FetchContinuousBatchingKVCacheCollection
  | FetchPagedKVCacheCollection
  | FetchPagedKVCacheCollectionFA3Fallback
deriving DecidableEq

/-- Construction-time failures of `Llama3.__init__`: the `ValueError` for a
missing `rms_norm_eps`, the two `assert` statements guarding the quantized
attention variants, and the `ValueError` for an unsupported cache
strategy. -/
inductive BuildError where
  | rmsNormEpsNone
  | gptqQuantizationConfigNone
  | attentionBiasUnsupported
  | unsupportedCacheStrategy
deriving DecidableEq

/-- The attention-class selection of `Llama3.__init__` (lines 84-111):
the GPTQ branch asserts a quantization config is present and that
`attention_bias` is off; any other set encoding takes the GGUF branch,
asserting `attention_bias` is off; otherwise the standard attention class
is chosen. -/
def selectAttention (config : Llama3Config) : Except BuildError AttentionVariant :=
  if config.model_quantization_encoding = some QuantizationEncoding.GPTQ then
    if config.quantization_config = none then
      Except.error BuildError.gptqQuantizationConfigNone
    else if config.attention_bias then
      Except.error BuildError.attentionBiasUnsupported
    else
      Except.ok AttentionVariant.GPTQAttentionWithRope
  else if config.model_quantization_encoding.isSome then
    if config.attention_bias then
      Except.error BuildError.attentionBiasUnsupported
    else
      Except.ok AttentionVariant.GGUFQAttentionWithRope
  else
    Except.ok AttentionVariant.AttentionWithRopeV2

/-- The cache-strategy dispatch of `Llama3.__init__` (lines 165-183): the
three recognized strategies select a fetch class; anything else raises
`ValueError("Unsupported caching strategy ...")`. -/
def selectKVClass (config : Llama3Config) : Except BuildError KVCollectionClass :=
  match config.cache_strategy with
  | KVCacheStrategy.CONTINUOUS =>
    Except.ok KVCollectionClass.FetchContinuousBatchingKVCacheCollection
  | KVCacheStrategy.PAGED =>
    Except.ok KVCollectionClass.FetchPagedKVCacheCollection
  | KVCacheStrategy.PAGED_FA3_FALLBACK =>
    Except.ok KVCollectionClass.FetchPagedKVCacheCollectionFA3Fallback
  | KVCacheStrategy.NAIVE =>
    Except.error BuildError.unsupportedCacheStrategy

/-- `Llama3.__init__`, restricted to its construction-time rejection logic
and the build-time selections it fixes: norm check, attention-class
selection (with the `assert not config.attention_bias` guards on the GPTQ
and GGUF branches), and cache-strategy dispatch, in the order the
constructor executes them.  Returns the chosen attention variant and cache
collection class on success; the built model then runs
`Transformer.call`, which contains none of these checks. -/
def buildLlama3 (config : Llama3Config) :
    Except BuildError (AttentionVariant × KVCollectionClass) :=
  if config.norm_method = NormMethod.rms_norm ∧ config.rms_norm_eps = none then
    Except.error BuildError.rmsNormEpsNone
  else
    match selectAttention config with
    | Except.error e => Except.error e
    | Except.ok av =>
      match selectKVClass config with
      | Except.error e => Except.error e
      | Except.ok kc => Except.ok (av, kc)

/-! ### Helper lemmas -/

theorem scale_one (t : Tensor2) : scale 1 t = t := by
  simp [scale]

theorem block_callScaleAlways_eq (blk : TransformerBlock)
    (h1 : blk.residual_multiplier = 1) (x : Tensor2) (kv : KVCollection)
    (kw : LayerKwargs) : blk.callScaleAlways x kv kw = blk.call x kv kw := by
  simp [TransformerBlock.call, TransformerBlock.callScaleAlways, h1, scale_one]

theorem runLayersScaleAlways_eq (layers : List TransformerBlock)
    (hall : ∀ blk ∈ layers, blk.residual_multiplier = 1) (h : Tensor2)
    (kv : KVCollection) (kw : LayerKwargs) :
    runLayersScaleAlways layers h kv kw = runLayers layers h kv kw := by
  induction layers generalizing h with
  | nil => rfl
  | cons blk rest ih =>
    have hblk : blk.residual_multiplier = 1 := hall blk (List.mem_cons_self _ _)
    have hrest : ∀ b ∈ rest, b.residual_multiplier = 1 :=
      fun b hb => hall b (List.mem_cons_of_mem _ hb)
    simp only [runLayers, runLayersScaleAlways, List.foldl_cons] at ih ⊢
    rw [block_callScaleAlways_eq blk hblk, ih hrest]

theorem rangeInt_down_length (k : Int) : (rangeInt k 0 (-1)).length = k.toNat := by
  unfold rangeInt
  rw [if_neg (by decide), if_pos (by decide)]
  rw [List.length_map, List.length_range]
  norm_num

theorem rangeInt_down_getElem (k : Int) (r : Nat) (hr : r < k.toNat) :
    (rangeInt k 0 (-1))[r]? = some (k - (r : Int)) := by
  unfold rangeInt
  rw [if_neg (by decide), if_pos (by decide)]
  have hlen : ((k - 0).toNat + ((-(-1 : Int)).toNat - 1)) / (-(-1 : Int)).toNat = k.toNat := by
    norm_num
  rw [hlen, List.getElem?_map, List.getElem?_range hr]
  simp only [Option.map_some']
  congr 1
  ring

theorem flatMap_length_uniform {α : Type} (f : α → List Int) (kn : Nat)
    (hf : ∀ e, (f e).length = kn) (l : List α) :
    (l.flatMap f).length = l.length * kn := by
  induction l with
  | nil => simp
  | cons a rest ih =>
    simp [List.flatMap_cons, hf, ih, Nat.succ_mul, Nat.add_comm]

theorem flatMap_getElem_uniform {α : Type} (f : α → List Int) (kn : Nat)
    (hf : ∀ e, (f e).length = kn) (l : List α) (i r : Nat) (x : α)
    (hi : l[i]? = some x) (hr : r < kn) :
    (l.flatMap f)[i * kn + r]? = (f x)[r]? := by
  induction l generalizing i with
  | nil => simp at hi
  | cons a rest ih =>
    cases i with
    | zero =>
      simp only [List.getElem?_cons_zero, Option.some.injEq] at hi
      subst hi
      rw [List.flatMap_cons]
      have : (0 : Nat) * kn + r = r := by ring
      rw [this, List.getElem?_append_left (by rw [hf]; exact hr)]
    | succ j =>
      simp only [List.getElem?_cons_succ] at hi
      rw [List.flatMap_cons]
      have hlen : (f a).length ≤ (j + 1) * kn + r := by
        rw [hf]; nlinarith
      rw [List.getElem?_append_right hlen, hf]
      have : (j + 1) * kn + r - kn = j * kn + r := by
        rw [Nat.succ_mul]; omega
      rw [this]
      exact ih j hi

theorem varIndices_length (ro : Tensor1) (k : Int) :
    (varIndices ro k).length = ro.tail.length * k.toNat := by
  unfold varIndices
  apply flatMap_length_uniform
  intro e
  rw [List.length_map, rangeInt_down_length]

theorem varIndices_getElem (ro : Tensor1) (k : Int) (i r : Nat) (e : Int)
    (hi : ro[i + 1]? = some e) (hr : r < k.toNat) :
    (varIndices ro k)[i * k.toNat + r]? = some (e - (k - (r : Int))) := by
  unfold varIndices
  rw [flatMap_getElem_uniform _ k.toNat
    (fun x => by rw [List.length_map, rangeInt_down_length]) _ i r e
    (by rw [List.getElem?_tail]; exact hi) hr]
  rw [List.getElem?_map, rangeInt_down_getElem k r hr]
  rfl

theorem rangeInt_offsets_eq (b : Nat) (k : Int) (hk : 0 < k) :
    rangeInt 0 (((b * k.toNat : Nat) : Int) + k) k =
      (List.range (b + 1)).map (fun (i : Nat) => k * (i : Int)) := by
  unfold rangeInt
  rw [if_pos hk]
  have hkn : 0 < k.toNat := by omega
  have hcast : ((b * k.toNat : Nat) : Int) + k - 0 = ((b * k.toNat + k.toNat : Nat) : Int) := by
    push_cast [Int.toNat_of_nonneg (le_of_lt hk)]
    ring
  rw [hcast, Int.toNat_natCast]
  have hcount : (b * k.toNat + k.toNat + (k.toNat - 1)) / k.toNat = b + 1 := by
    have h1 : b * k.toNat + k.toNat + (k.toNat - 1) = k.toNat * (b + 1) + (k.toNat - 1) := by
      rw [Nat.mul_succ, Nat.mul_comm]
    rw [h1, Nat.mul_add_div hkn, Nat.div_eq_of_lt (by omega)]
  rw [hcount]
  exact List.map_congr_left (fun i _ => by ring)

theorem call_eq_finishDecode (m : Transformer) (tokens : List Int)
    (kvIn : List Tensor1) (rnl ro : Tensor1) (kw : LayerKwargs)
    (hkw : decodeKwargs kvIn ro = some kw) :
    m.call tokens kvIn rnl ro =
      m.finishDecode (m.hiddenAfterLayers tokens kvIn kw) rnl ro := by
  unfold Transformer.call Transformer.hiddenAfterLayers
  rw [hkw]

theorem finishDecode_lastToken (m : Transformer)
    (hpol : m.return_logits = ReturnLogits.LAST_TOKEN)
    (hpp : m.logits_postprocessor = none) (h : Tensor2) (rnl ro : Tensor1) :
    m.finishDecode h rnl ro = some (DecodeOutput.last (m.lastTokenLogits h ro)) := by
  unfold Transformer.finishDecode Transformer.extractLogits
  rw [hpol]
  simp [Transformer.postprocess1, hpp, tensorTruthy]

theorem finishDecode_variable (m : Transformer)
    (hpol : m.return_logits = ReturnLogits.VARIABLE)
    (hpp : m.logits_postprocessor = none) (h : Tensor2) (rnl ro : Tensor1)
    (k : Int) (hget : rnl[0]? = some k) :
    m.finishDecode h rnl ro = some (DecodeOutput.full (m.lastTokenLogits h ro)
      (m.applyHead (gather h (varIndices ro k)))
      (rangeInt 0 (((varIndices ro k).length : Int) + k) k)) := by
  unfold Transformer.finishDecode Transformer.extractLogits
  rw [hpol, hget]
  simp [Transformer.postprocess1, hpp, tensorTruthy]

theorem finishDecode_all (m : Transformer)
    (hpol : m.return_logits = ReturnLogits.ALL)
    (hpp : m.logits_postprocessor = none) (h : Tensor2) (rnl ro : Tensor1) :
    m.finishDecode h rnl ro = some (DecodeOutput.full (m.lastTokenLogits h ro)
      (m.applyHead h) ro) := by
  unfold Transformer.finishDecode Transformer.extractLogits
  rw [hpol]
  simp [Transformer.postprocess1, hpp, tensorTruthy]

theorem validRowOffsets_mono (ro : Tensor1) (total : Nat)
    (hv : validRowOffsets ro total) (i d : Nat) (hd : i + d ≤ ro.length - 1) :
    ro.getD i 0 ≤ ro.getD (i + d) 0 := by
  induction d with
  | zero => exact le_refl _
  | succ e ih =>
    have h1 : i + e ≤ ro.length - 1 := by omega
    have h2 : i + e < ro.length - 1 := by omega
    have := hv.2.2.2 (i + e) h2
    calc ro.getD i 0 ≤ ro.getD (i + e) 0 := ih h1
    _ ≤ ro.getD (i + e + 1) 0 := le_of_lt this

theorem validRowOffsets_bounds (ro : Tensor1) (total : Nat)
    (hv : validRowOffsets ro total) (i : Nat) (hi : i < ro.length - 1) :
    1 ≤ ro.getD (i + 1) 0 ∧ ro.getD (i + 1) 0 ≤ (total : Int) := by
  constructor
  · have h0 : ro.getD 0 0 ≤ ro.getD i 0 := by
      have := validRowOffsets_mono ro total hv 0 i (by omega)
      simpa using this
    have hs : ro.getD i 0 < ro.getD (i + 1) 0 := hv.2.2.2 i hi
    have := hv.2.1
    omega
  · have := validRowOffsets_mono ro total hv (i + 1) (ro.length - 1 - (i + 1)) (by omega)
    have harith : i + 1 + (ro.length - 1 - (i + 1)) = ro.length - 1 := by omega
    rw [harith] at this
    rw [hv.2.2.1] at this
    exact this

theorem getD_getElem? (l : Tensor1) (i : Nat) (hi : i < l.length) :
    l[i]? = some (l.getD i 0) := by
  rw [List.getD_eq_getElem?_getD, List.getElem?_eq_getElem hi]
  rfl

/-- Claim C3: for every valid row-offsets vector of length b+1, the
LAST_TOKEN policy returns a one-element tuple with no offsets tensor,
whose logits tensor has exactly b rows, row i being the final hidden-state
row at index row_offsets[i+1]-1 passed through the final norm and the
output head. -/
theorem last_token_policy_rows (m : Transformer) (tokens : List Int)
    (kvIn : List Tensor1) (rnl ro : Tensor1) (b total : Nat) (kw : LayerKwargs)
    (hpol : m.return_logits = ReturnLogits.LAST_TOKEN)
    (hpp : m.logits_postprocessor = none)
    (hb : ro.length = b + 1)
    (hkw : decodeKwargs kvIn ro = some kw)
    (hv : validRowOffsets ro total)
    (hlen : (m.hiddenAfterLayers tokens kvIn kw).length = total) :
    ∃ L, m.call tokens kvIn rnl ro = some (DecodeOutput.last L) ∧
      L.length = b ∧
      ∀ i, i < b → ∃ row,
        (m.hiddenAfterLayers tokens kvIn kw)[(ro.getD (i + 1) 0 - 1).toNat]? = some row ∧
        L[i]? = some (m.lm_head (m.norm row)) := by
  rw [call_eq_finishDecode m tokens kvIn rnl ro kw hkw,
    finishDecode_lastToken m hpol hpp]
  set h := m.hiddenAfterLayers tokens kvIn kw with hh
  refine ⟨m.lastTokenLogits h ro, rfl, ?_, ?_⟩
  · unfold Transformer.lastTokenLogits Transformer.applyHead castFloat32 gather
    simp only [List.length_map, List.length_tail]
    omega
  · intro i hi
    have hib : i < ro.length - 1 := by omega
    obtain ⟨hlow, hhigh⟩ := validRowOffsets_bounds ro total hv i hib
    have hidx : (ro.getD (i + 1) 0 - 1).toNat < h.length := by
      rw [hlen]; omega
    refine ⟨h.getD (ro.getD (i + 1) 0 - 1).toNat [], ?_, ?_⟩
    · rw [List.getElem?_eq_getElem hidx]
      have hgd : h.getD (ro.getD (i + 1) 0 - 1).toNat [] =
          h[(ro.getD (i + 1) 0 - 1).toNat] := by
        rw [List.getD_eq_getElem?_getD, List.getElem?_eq_getElem hidx]
        rfl
      rw [hgd]
    · unfold Transformer.lastTokenLogits Transformer.applyHead castFloat32 gather
      rw [List.getElem?_map, List.getElem?_map, List.getElem?_map,
        List.getElem?_tail, getD_getElem? ro (i + 1) (by omega)]
      rfl
/-- Claim C1: for a batch of b sequences and return_n_logits = [k], the
VARIABLE policy produces a flattened logits tensor with exactly b*k rows
(the row at block position (i, j), j descending from k-1 to 0, being
gathered from hidden-state index row_offsets[i+1]-1-j) and an offsets
vector equal to the arithmetic progression 0, k, 2k, ..., b*k. -/
theorem variable_policy_rows_offsets (m : Transformer) (tokens : List Int)
    (kvIn : List Tensor1) (ro : Tensor1) (k : Int) (b : Nat) (kw : LayerKwargs)
    (hpol : m.return_logits = ReturnLogits.VARIABLE)
    (hpp : m.logits_postprocessor = none)
    (hb : ro.length = b + 1)
    (hk : 0 < k)
    (hkw : decodeKwargs kvIn ro = some kw) :
    ∃ lastL logitsL offs,
      m.call tokens kvIn [k] ro = some (DecodeOutput.full lastL logitsL offs) ∧
      logitsL.length = b * k.toNat ∧
      offs = (List.range (b + 1)).map (fun (i : Nat) => k * (i : Int)) ∧
      logitsL = m.applyHead (gather (m.hiddenAfterLayers tokens kvIn kw) (varIndices ro k)) ∧
      ∀ i j, i < b → j < k.toNat →
        (varIndices ro k)[i * k.toNat + (k.toNat - 1 - j)]? =
          some (ro.getD (i + 1) 0 - 1 - (j : Int)) := by
  rw [call_eq_finishDecode m tokens kvIn [k] ro kw hkw,
    finishDecode_variable m hpol hpp _ [k] ro k rfl]
  have hvlen : (varIndices ro k).length = b * k.toNat := by
    rw [varIndices_length, List.length_tail, hb, Nat.add_sub_cancel]
  refine ⟨_, _, _, rfl, ?_, ?_, rfl, ?_⟩
  · unfold Transformer.applyHead castFloat32 gather
    rw [List.length_map, List.length_map, hvlen]
  · rw [hvlen, rangeInt_offsets_eq b k hk]
  · intro i j hi hj
    have hget : ro[i + 1]? = some (ro.getD (i + 1) 0) := getD_getElem? ro (i + 1) (by omega)
    rw [varIndices_getElem ro k i (k.toNat - 1 - j) _ hget (by omega)]
    congr 1
    have hkk : ((k.toNat : Int)) = k := Int.toNat_of_nonneg hk.le
    omega

/-- Claim C4: the ALL policy returns a three-element tuple whose logits
tensor has one row per token of the batch (the head applied to every final
hidden-state row), whose offsets tensor is identity-equal to the input
row_offsets, and whose last_logits is still computed by the same
last-token gather as the LAST_TOKEN branch. -/
theorem all_policy_output (m : Transformer) (tokens : List Int)
    (kvIn : List Tensor1) (rnl ro : Tensor1) (kw : LayerKwargs)
    (hpol : m.return_logits = ReturnLogits.ALL)
    (hpp : m.logits_postprocessor = none)
    (hkw : decodeKwargs kvIn ro = some kw) :
    m.call tokens kvIn rnl ro = some (DecodeOutput.full
      (m.lastTokenLogits (m.hiddenAfterLayers tokens kvIn kw) ro)
      (m.applyHead (m.hiddenAfterLayers tokens kvIn kw)) ro) ∧
    (m.applyHead (m.hiddenAfterLayers tokens kvIn kw)).length =
      (m.hiddenAfterLayers tokens kvIn kw).length ∧
    m.lastTokenLogits (m.hiddenAfterLayers tokens kvIn kw) ro =
      m.applyHead (gather (m.hiddenAfterLayers tokens kvIn kw)
        (ro.tail.map (fun v => v - 1))) := by
  refine ⟨?_, ?_, rfl⟩
  · rw [call_eq_finishDecode m tokens kvIn rnl ro kw hkw,
      finishDecode_all m hpol hpp _ rnl ro]
  · unfold Transformer.applyHead castFloat32
    rw [List.length_map]

theorem zipWith_getD (f : Int → Int → Int) (a b : List Int) (i : Nat)
    (ha : i < a.length) (hb : i < b.length) :
    (List.zipWith f a b).getD i 0 = f (a.getD i 0) (b.getD i 0) := by
  rw [List.getD_eq_getElem?_getD, List.getElem?_zipWith,
    getD_getElem? a i ha, getD_getElem? b i hb]
  rfl

theorem decodeKwargs_eq (kvIn : List Tensor1) (ro : Tensor1) (cache : Tensor1)
    (hc : kvIn[1]? = some cache) :
    decodeKwargs kvIn ro =
      if (List.zipWith (fun a b => a - b) ro.tail ro).length = cache.length then
        some ⟨ro, List.zipWith (fun a b => a + b)
          (List.zipWith (fun a b => a - b) ro.tail ro) cache⟩
      else none := by
  unfold decodeKwargs
  rw [hc]

/-- Claim C5: the context-length vector computed by the forward-decode
operation and passed (inside the kwargs bundle) to every layer equals,
elementwise per sequence, the prompt length row_offsets[i+1] -
row_offsets[i] plus the cache length taken from element 1 of the raw
kv-cache inputs. -/
theorem context_lengths_roundtrip (kvIn : List Tensor1) (ro : Tensor1)
    (kw : LayerKwargs) (cache : Tensor1)
    (hc : kvIn[1]? = some cache)
    (hkw : decodeKwargs kvIn ro = some kw) :
    kw.input_row_offsets = ro ∧
    kw.context_lengths.length = cache.length ∧
    (∀ i, i < cache.length →
      kw.context_lengths.getD i 0 =
        (ro.getD (i + 1) 0 - ro.getD i 0) + cache.getD i 0) ∧
    ∀ (m : Transformer) (h0 : Tensor2) (kv : KVCollection),
      runLayers m.layers h0 kv kw =
        m.layers.foldl (fun acc blk => blk.call acc kv kw) h0 := by
  rw [decodeKwargs_eq kvIn ro cache hc] at hkw
  by_cases hlen : (List.zipWith (fun a b => a - b) ro.tail ro).length = cache.length
  · rw [if_pos hlen] at hkw
    obtain rfl := (Option.some.inj hkw).symm
    refine ⟨rfl, ?_, ?_, fun m h0 kv => rfl⟩
    · show (List.zipWith (fun a b => a + b) _ cache).length = cache.length
      rw [List.length_zipWith, hlen, min_self]
    · intro i hi
      have hplen : (List.zipWith (fun a b => a - b) ro.tail ro).length = ro.length - 1 := by
        rw [List.length_zipWith, List.length_tail]
        omega
      have hib : i < ro.length - 1 := by omega
      show (List.zipWith (fun a b => a + b)
        (List.zipWith (fun a b => a - b) ro.tail ro) cache).getD i 0 = _
      rw [zipWith_getD _ _ _ i (by omega) hi,
        zipWith_getD _ _ _ i (by rw [List.length_tail]; omega) (by omega)]
      have htail : ro.tail.getD i 0 = ro.getD (i + 1) 0 := by
        rw [List.getD_eq_getElem?_getD, List.getElem?_tail, ← List.getD_eq_getElem?_getD]
      rw [htail]
  · rw [if_neg hlen] at hkw
    exact absurd hkw (by simp)

/-- Claim C6: each DecoderBlock computes exactly the composition
pre-attention norm, attention, optional residual scaling (when the
multiplier differs from 1), residual add, pre-MLP norm, feed-forward,
optional scaling, residual add; and the forward-decode operation applies
the blocks strictly in list order, threading the hidden state while
sharing one cache collection and kwargs bundle. -/
theorem decoder_block_composition_and_order :
    (∀ (blk : TransformerBlock) (x : Tensor2) (kv : KVCollection) (kw : LayerKwargs),
      blk.call x kv kw =
        (let attn_out := blk.self_attn (x.map blk.input_layernorm) kv kw
         let attn_scaled := if blk.residual_multiplier ≠ 1 then
           scale blk.residual_multiplier attn_out else attn_out
         let h := add2 x attn_scaled
         let mlp_out := (h.map blk.post_attention_layernorm).map blk.mlp
         let mlp_scaled := if blk.residual_multiplier ≠ 1 then
           scale blk.residual_multiplier mlp_out else mlp_out
         add2 h mlp_scaled)) ∧
    (∀ (blk : TransformerBlock) (rest : List TransformerBlock) (h0 : Tensor2)
      (kv : KVCollection) (kw : LayerKwargs),
      runLayers (blk :: rest) h0 kv kw = runLayers rest (blk.call h0 kv kw) kv kw) ∧
    (∀ (m : Transformer) (tokens : List Int) (kvIn : List Tensor1) (kw : LayerKwargs),
      m.hiddenAfterLayers tokens kvIn kw =
        runLayers m.layers (m.inputHidden tokens) (m.kv_collection_constructor kvIn) kw) :=
  ⟨fun _ _ _ _ => rfl, fun _ _ _ _ _ => rfl, fun _ _ _ _ => rfl⟩

/-- Claim C7: when residual_multiplier and embedding_multiplier are both
exactly 1, the decode output with the scaling branches skipped is
identical to the output with the scaling branches executed with
multiplier 1: the skip-when-1 optimization never changes any result. -/
theorem scaling_skip_identity (m : Transformer) (tokens : List Int)
    (kvIn : List Tensor1) (rnl ro : Tensor1)
    (hemb : m.embedding_multiplier = 1)
    (hres : ∀ blk ∈ m.layers, blk.residual_multiplier = 1) :
    m.callScaleAlways tokens kvIn rnl ro = m.call tokens kvIn rnl ro := by
  unfold Transformer.call Transformer.callScaleAlways Transformer.inputHidden
  rw [hemb]
  simp only [ne_eq, not_true_eq_false, if_false, scale_one]
  cases hkw : decodeKwargs kvIn ro with
  | none => rfl
  | some kw =>
    show m.finishDecode (runLayersScaleAlways m.layers (m.embed_tokens tokens)
        (m.kv_collection_constructor kvIn) kw) rnl ro =
      m.finishDecode (runLayers m.layers (m.embed_tokens tokens)
        (m.kv_collection_constructor kvIn) kw) rnl ro
    rw [runLayersScaleAlways_eq m.layers hres]

/-- Claim C10: in VARIABLE mode, when the scalar k exceeds the prompt
length of sequence i, the computed gather indices reach below
row_offsets[i] (selecting rows of the preceding sequence, or negative
indices for the first sequence), and the forward-decode operation performs
no bounds check: the call still succeeds and still emits b*k logit
rows. -/
theorem variable_policy_no_bounds_check (m : Transformer) (tokens : List Int)
    (kvIn : List Tensor1) (ro : Tensor1) (k : Int) (b i : Nat) (kw : LayerKwargs)
    (hpol : m.return_logits = ReturnLogits.VARIABLE)
    (hpp : m.logits_postprocessor = none)
    (hb : ro.length = b + 1)
    (hk : 0 < k)
    (hkw : decodeKwargs kvIn ro = some kw)
    (hi : i < b)
    (hover : ro.getD (i + 1) 0 - ro.getD i 0 < k) :
    (ro.getD (i + 1) 0 - k) ∈ varIndices ro k ∧
    ro.getD (i + 1) 0 - k < ro.getD i 0 ∧
    ∃ lastL logitsL offs,
      m.call tokens kvIn [k] ro = some (DecodeOutput.full lastL logitsL offs) ∧
      logitsL.length = b * k.toNat := by
  refine ⟨?_, by omega, ?_⟩
  · have hget : ro[i + 1]? = some (ro.getD (i + 1) 0) := getD_getElem? ro (i + 1) (by omega)
    have hmem := varIndices_getElem ro k i 0 _ hget (by omega)
    rw [Nat.add_zero] at hmem
    have hval : ro.getD (i + 1) 0 - (k - ((0 : Nat) : Int)) = ro.getD (i + 1) 0 - k := by
      norm_num
    rw [hval] at hmem
    obtain ⟨hlt, heq⟩ := List.getElem?_eq_some.mp hmem
    rw [← heq]
    exact List.getElem_mem _
  · rw [call_eq_finishDecode m tokens kvIn [k] ro kw hkw,
      finishDecode_variable m hpol hpp _ [k] ro k rfl]
    refine ⟨_, _, _, rfl, ?_⟩
    unfold Transformer.applyHead castFloat32 gather
    rw [List.length_map, List.length_map, varIndices_length, List.length_tail, hb,
      Nat.add_sub_cancel]

/-- Map a function over every logits tensor of a decode output (the
last_logits and, when produced, the flattened/all-token logits tensor),
leaving the offsets tensor unchanged. -/
def DecodeOutput.mapLogits (g : Tensor2 → Tensor2) : DecodeOutput → DecodeOutput
  | DecodeOutput.last l => DecodeOutput.last (g l)
  | DecodeOutput.full l lg offs => DecodeOutput.full (g l) (g lg) offs

theorem finishDecode_postprocessor (m : Transformer) (g : Tensor2 → Tensor2)
    (hg : m.logits_postprocessor = some g) (h : Tensor2) (rnl ro : Tensor1) :
    m.finishDecode h rnl ro =
      Option.map (DecodeOutput.mapLogits g)
        (Transformer.finishDecode { m with logits_postprocessor := none } h rnl ro) := by
  have hex : Transformer.extractLogits { m with logits_postprocessor := none } h rnl ro
      = m.extractLogits h rnl ro := rfl
  have hlt : Transformer.lastTokenLogits { m with logits_postprocessor := none } h ro
      = m.lastTokenLogits h ro := rfl
  unfold Transformer.finishDecode
  rw [hex, hlt]
  cases hE : m.extractLogits h rnl ro with
  | none => rfl
  | some pr =>
    obtain ⟨lo, oo⟩ := pr
    cases lo <;> cases oo <;>
      simp [Transformer.postprocess1, hg, tensorTruthy, DecodeOutput.mapLogits]

/-- Claim C2: for every policy, a configured logits_postprocessor is
applied independently to each logits tensor the call returns (last_logits
always, and the flattened/all-token logits whenever VARIABLE or ALL
produces one, also when that tensor is all-zero, since presence is a
produced-or-not boolean); when unset, every returned logits tensor is the
unprocessed value. -/
theorem logits_postprocessor_application (m : Transformer) (tokens : List Int)
    (kvIn : List Tensor1) (rnl ro : Tensor1) :
    (∀ g, m.logits_postprocessor = some g →
      m.call tokens kvIn rnl ro =
        Option.map (DecodeOutput.mapLogits g)
          (Transformer.call { m with logits_postprocessor := none } tokens kvIn rnl ro)) ∧
    (m.logits_postprocessor = none →
      m.call tokens kvIn rnl ro =
        Option.map (DecodeOutput.mapLogits (fun t => t)) (m.call tokens kvIn rnl ro)) := by
  constructor
  · intro g hg
    unfold Transformer.call
    cases hkw : decodeKwargs kvIn ro with
    | none => rfl
    | some kw =>
      exact finishDecode_postprocessor m g hg _ rnl ro
  · intro _
    cases ho : m.call tokens kvIn rnl ro with
    | none => rfl
    | some o => cases o <;> simp [DecodeOutput.mapLogits]

/-- Claim C8: the 3-axis rotary provider with head_dim 8 (inverse
frequencies sized by the iota range(0, 7, 2), hence of length 4, for any
theta, here 10000) maps an all-zero position-id tensor of shape [3,1,1] to
an all-ones cosine table and an all-zeros sine table of shape [3,1,1,8],
the head dimension being reached by concatenating the angle tensor with
itself before cosine and sine are applied (the hypotheses on `c` and `s`
are the facts cos 0 = 1 and sin 0 = 0 of the real elementwise
functions). -/
theorem rotary_zero_positions (inv_freqs : List ℚ) (c s : ℚ → ℚ)
    (hlen : inv_freqs.length = (invFreqIota 8).length)
    (hc : c 0 = 1) (hs : s 0 = 0) :
    freqs_cis_base inv_freqs c s [[[0]], [[0]], [[0]]] =
      (List.replicate 3 [[List.replicate 8 (1 : ℚ)]],
       List.replicate 3 [[List.replicate 8 (0 : ℚ)]]) := by
  have h4 : inv_freqs.length = 4 := by rw [hlen]; rfl
  have hmap : inv_freqs.map (fun v => v * 0) = List.replicate 4 (0 : ℚ) := by
    have h0 : inv_freqs.map (fun v => v * 0) = inv_freqs.map (fun _ => (0 : ℚ)) :=
      List.map_congr_left (fun a _ => mul_zero a)
    rw [h0, List.map_const', h4]
  have happ : List.replicate 4 (0 : ℚ) ++ List.replicate 4 (0 : ℚ) =
      List.replicate 8 (0 : ℚ) := by
    rw [← List.replicate_add]
  unfold freqs_cis_base
  simp only [List.map_cons, List.map_nil, hmap, happ, List.map_replicate, hc, hs]
  rfl

theorem build_error_of_bias (config : Llama3Config)
    (hsome : config.model_quantization_encoding.isSome = true)
    (hbias : config.attention_bias = true) :
    ∃ e, buildLlama3 config = Except.error e := by
  have hatt : ∃ e, selectAttention config = Except.error e := by
    unfold selectAttention
    by_cases hg : config.model_quantization_encoding = some QuantizationEncoding.GPTQ
    · rw [if_pos hg]
      by_cases hqc : config.quantization_config = none
      · exact ⟨_, by rw [if_pos hqc]⟩
      · exact ⟨_, by rw [if_neg hqc, if_pos hbias]⟩
    · rw [if_neg hg, if_pos hsome, if_pos hbias]
      exact ⟨_, rfl⟩
  unfold buildLlama3
  by_cases hn : config.norm_method = NormMethod.rms_norm ∧ config.rms_norm_eps = none
  · exact ⟨_, by rw [if_pos hn]⟩
  · obtain ⟨e, he⟩ := hatt
    exact ⟨e, by rw [if_neg hn, he]⟩

theorem build_error_of_strategy (config : Llama3Config)
    (hcs : config.cache_strategy ≠ KVCacheStrategy.CONTINUOUS ∧
      config.cache_strategy ≠ KVCacheStrategy.PAGED ∧
      config.cache_strategy ≠ KVCacheStrategy.PAGED_FA3_FALLBACK) :
    ∃ e, buildLlama3 config = Except.error e := by
  have hnaive : config.cache_strategy = KVCacheStrategy.NAIVE := by
    cases h : config.cache_strategy
    · exact absurd h hcs.1
    · exact absurd h hcs.2.1
    · exact absurd h hcs.2.2
    · rfl
  have hkv : selectKVClass config = Except.error BuildError.unsupportedCacheStrategy := by
    unfold selectKVClass
    rw [hnaive]
  unfold buildLlama3
  by_cases hn : config.norm_method = NormMethod.rms_norm ∧ config.rms_norm_eps = none
  · exact ⟨_, by rw [if_pos hn]⟩
  · rw [if_neg hn]
    cases ha : selectAttention config with
    | error e => exact ⟨e, rfl⟩
    | ok av => exact ⟨_, by rw [hkv]⟩

/-- Claim C9: unsupported configurations are rejected at model
construction time, never at call time: attention_bias together with a
quantized attention encoding (GPTQ or any GGUF encoding) fails the build,
a cache strategy outside the recognized set (continuous, paged,
paged-FA3-fallback) fails the build, and a successful build implies
neither offending condition held, so no call on the built model can hit
these errors (`Transformer.call` contains no such check). -/
theorem llama3_build_rejection (config : Llama3Config) :
    (config.model_quantization_encoding.isSome = true →
      config.attention_bias = true →
      ∃ e, buildLlama3 config = Except.error e) ∧
    ((config.cache_strategy ≠ KVCacheStrategy.CONTINUOUS ∧
      config.cache_strategy ≠ KVCacheStrategy.PAGED ∧
      config.cache_strategy ≠ KVCacheStrategy.PAGED_FA3_FALLBACK) →
      ∃ e, buildLlama3 config = Except.error e) ∧
    (∀ sel, buildLlama3 config = Except.ok sel →
      (¬ (config.model_quantization_encoding.isSome = true ∧
          config.attention_bias = true) ∧
       (config.cache_strategy = KVCacheStrategy.CONTINUOUS ∨
        config.cache_strategy = KVCacheStrategy.PAGED ∨
        config.cache_strategy = KVCacheStrategy.PAGED_FA3_FALLBACK))) := by
  refine ⟨build_error_of_bias config, build_error_of_strategy config, ?_⟩
  intro sel hok
  constructor
  · rintro ⟨hsome, hbias⟩
    obtain ⟨e, he⟩ := build_error_of_bias config hsome hbias
    rw [he] at hok
    exact absurd hok (by simp)
  · by_contra hcon
    push_neg at hcon
    obtain ⟨e, he⟩ := build_error_of_strategy config hcon
    rw [he] at hok
    exact absurd hok (by simp)

/-! ### Concrete witnesses -/

/-- A minimal concrete model in VARIABLE mode: one-dimensional identity
components and no layers, so the hidden state is the token list itself. -/
def wVarModel : Transformer where
  dim := 1
  n_heads := 1
  embed_tokens := fun toks => toks.map (fun t => [(t : ℚ)])
  embedding_multiplier := 1
  layers := []
  norm := fun v => v
  lm_head := fun v => v
  kv_collection_constructor := fun raw => raw
  return_logits := ReturnLogits.VARIABLE
  logits_postprocessor := none

/-- Witness for claim C1 at row_offsets [0,3,8], k = 2: the flattened
gather indices are [1,2,6,7] and offsets = [0,2,4]. -/
theorem variable_policy_rows_offsets_witness :
    (wVarModel.return_logits = ReturnLogits.VARIABLE ∧
     wVarModel.logits_postprocessor = none ∧
     ([0, 3, 8] : Tensor1).length = 2 + 1 ∧
     (0 : Int) < 2 ∧
     decodeKwargs [[], [0, 0]] [0, 3, 8] = some ⟨[0, 3, 8], [3, 5]⟩) ∧
    varIndices [0, 3, 8] 2 = [1, 2, 6, 7] ∧
    rangeInt 0 (((varIndices [0, 3, 8] 2).length : Int) + 2) 2 = [0, 2, 4] ∧
    (∃ lastL logitsL offs,
      wVarModel.call [10, 11, 12, 13, 14, 15, 16, 17] [[], [0, 0]] [2] [0, 3, 8] =
        some (DecodeOutput.full lastL logitsL offs) ∧
      logitsL.length = 2 * (2 : Int).toNat ∧
      offs = (List.range (2 + 1)).map (fun (i : Nat) => (2 : Int) * (i : Int)) ∧
      logitsL = wVarModel.applyHead (gather (wVarModel.hiddenAfterLayers
        [10, 11, 12, 13, 14, 15, 16, 17] [[], [0, 0]] ⟨[0, 3, 8], [3, 5]⟩)
        (varIndices [0, 3, 8] 2)) ∧
      ∀ i j, i < 2 → j < (2 : Int).toNat →
        (varIndices [0, 3, 8] 2)[i * (2 : Int).toNat + ((2 : Int).toNat - 1 - j)]? =
          some (([0, 3, 8] : Tensor1).getD (i + 1) 0 - 1 - (j : Int))) :=
  ⟨⟨rfl, rfl, rfl, by decide, by decide⟩, by decide, by decide,
   variable_policy_rows_offsets wVarModel [10, 11, 12, 13, 14, 15, 16, 17]
     [[], [0, 0]] [0, 3, 8] 2 2 ⟨[0, 3, 8], [3, 5]⟩ rfl rfl rfl (by decide) (by decide)⟩

/-- The postprocessor used in the C2 witness: replace every entry by 1. -/
def wG : Tensor2 → Tensor2 := fun t => t.map (fun row => row.map (fun _ => 1))

/-- A model in ALL mode whose embedding is identically zero, so the
produced logits tensor is all-zero, with the add-one postprocessor
configured. -/
def wPPModel : Transformer where
  dim := 1
  n_heads := 1
  embed_tokens := fun toks => toks.map (fun _ => [(0 : ℚ)])
  embedding_multiplier := 1
  layers := []
  norm := fun v => v
  lm_head := fun v => v
  kv_collection_constructor := fun raw => raw
  return_logits := ReturnLogits.ALL
  logits_postprocessor := some wG

/-- Witness for claim C2: with the postprocessor configured, the call
output is the postprocessor mapped over the logits tensors of the
unset-postprocessor run; in particular the all-zero logits tensor is
postprocessed (to all ones), not skipped. -/
theorem logits_postprocessor_application_witness :
    wPPModel.logits_postprocessor = some wG ∧
    wPPModel.call [1, 2, 3] [[], [0]] [1] [0, 3] =
      Option.map (DecodeOutput.mapLogits wG)
        (Transformer.call { wPPModel with logits_postprocessor := none }
          [1, 2, 3] [[], [0]] [1] [0, 3]) ∧
    wPPModel.call [1, 2, 3] [[], [0]] [1] [0, 3] =
      some (DecodeOutput.full [[1]] [[1], [1], [1]] [0, 3]) :=
  ⟨rfl,
   (logits_postprocessor_application wPPModel [1, 2, 3] [[], [0]] [1] [0, 3]).1 wG rfl,
   by decide⟩

/-- A minimal concrete model in LAST_TOKEN mode. -/
def wLastModel : Transformer where
  dim := 1
  n_heads := 1
  embed_tokens := fun toks => toks.map (fun t => [(t : ℚ)])
  embedding_multiplier := 1
  layers := []
  norm := fun v => v
  lm_head := fun v => v
  kv_collection_constructor := fun raw => raw
  return_logits := ReturnLogits.LAST_TOKEN
  logits_postprocessor := none

/-- Witness for claim C3 at row_offsets [0,3,8] over 8 hidden rows: the
LAST_TOKEN output has 2 rows taken from hidden indices 2 and 7. -/
theorem last_token_policy_rows_witness :
    (wLastModel.return_logits = ReturnLogits.LAST_TOKEN ∧
     wLastModel.logits_postprocessor = none ∧
     ([0, 3, 8] : Tensor1).length = 2 + 1 ∧
     decodeKwargs [[], [0, 0]] [0, 3, 8] = some ⟨[0, 3, 8], [3, 5]⟩ ∧
     validRowOffsets [0, 3, 8] 8 ∧
     (wLastModel.hiddenAfterLayers [10, 11, 12, 13, 14, 15, 16, 17] [[], [0, 0]]
       ⟨[0, 3, 8], [3, 5]⟩).length = 8) ∧
    (∃ L, wLastModel.call [10, 11, 12, 13, 14, 15, 16, 17] [[], [0, 0]] [1] [0, 3, 8] =
        some (DecodeOutput.last L) ∧
      L.length = 2 ∧
      ∀ i, i < 2 → ∃ row,
        (wLastModel.hiddenAfterLayers [10, 11, 12, 13, 14, 15, 16, 17] [[], [0, 0]]
          ⟨[0, 3, 8], [3, 5]⟩)[(([0, 3, 8] : Tensor1).getD (i + 1) 0 - 1).toNat]? =
            some row ∧
        L[i]? = some (wLastModel.lm_head (wLastModel.norm row))) :=
  ⟨⟨rfl, rfl, rfl, by decide, by decide, by decide⟩,
   last_token_policy_rows wLastModel [10, 11, 12, 13, 14, 15, 16, 17] [[], [0, 0]]
     [1] [0, 3, 8] 2 8 ⟨[0, 3, 8], [3, 5]⟩ rfl rfl rfl (by decide) (by decide) (by decide)⟩

/-- A minimal concrete model in ALL mode. -/
def wAllModel : Transformer where
  dim := 1
  n_heads := 1
  embed_tokens := fun toks => toks.map (fun t => [(t : ℚ)])
  embedding_multiplier := 1
  layers := []
  norm := fun v => v
  lm_head := fun v => v
  kv_collection_constructor := fun raw => raw
  return_logits := ReturnLogits.ALL
  logits_postprocessor := none

/-- Witness for claim C4 at row_offsets [0,3,8]: the ALL output carries
one logit row per token and the input row_offsets as offsets. -/
theorem all_policy_output_witness :
    (wAllModel.return_logits = ReturnLogits.ALL ∧
     wAllModel.logits_postprocessor = none ∧
     decodeKwargs [[], [0, 0]] [0, 3, 8] = some ⟨[0, 3, 8], [3, 5]⟩) ∧
    (wAllModel.call [10, 11, 12, 13, 14, 15, 16, 17] [[], [0, 0]] [1] [0, 3, 8] =
      some (DecodeOutput.full
        (wAllModel.lastTokenLogits (wAllModel.hiddenAfterLayers
          [10, 11, 12, 13, 14, 15, 16, 17] [[], [0, 0]] ⟨[0, 3, 8], [3, 5]⟩) [0, 3, 8])
        (wAllModel.applyHead (wAllModel.hiddenAfterLayers
          [10, 11, 12, 13, 14, 15, 16, 17] [[], [0, 0]] ⟨[0, 3, 8], [3, 5]⟩)) [0, 3, 8]) ∧
    (wAllModel.applyHead (wAllModel.hiddenAfterLayers
      [10, 11, 12, 13, 14, 15, 16, 17] [[], [0, 0]] ⟨[0, 3, 8], [3, 5]⟩)).length =
      (wAllModel.hiddenAfterLayers
        [10, 11, 12, 13, 14, 15, 16, 17] [[], [0, 0]] ⟨[0, 3, 8], [3, 5]⟩).length ∧
    wAllModel.lastTokenLogits (wAllModel.hiddenAfterLayers
      [10, 11, 12, 13, 14, 15, 16, 17] [[], [0, 0]] ⟨[0, 3, 8], [3, 5]⟩) [0, 3, 8] =
      wAllModel.applyHead (gather (wAllModel.hiddenAfterLayers
        [10, 11, 12, 13, 14, 15, 16, 17] [[], [0, 0]] ⟨[0, 3, 8], [3, 5]⟩)
        (([0, 3, 8] : Tensor1).tail.map (fun v => v - 1)))) :=
  ⟨⟨rfl, rfl, by decide⟩,
   all_policy_output wAllModel [10, 11, 12, 13, 14, 15, 16, 17] [[], [0, 0]]
     [1] [0, 3, 8] ⟨[0, 3, 8], [3, 5]⟩ rfl rfl (by decide)⟩

/-- Witness for claim C5 with cache lengths [7,9] and prompts [3,5]: the
context lengths are [10,14]. -/
theorem context_lengths_roundtrip_witness :
    (([[], [7, 9]] : List Tensor1)[1]? = some [7, 9] ∧
     decodeKwargs [[], [7, 9]] [0, 3, 8] = some ⟨[0, 3, 8], [10, 14]⟩) ∧
    ((⟨[0, 3, 8], [10, 14]⟩ : LayerKwargs).input_row_offsets = [0, 3, 8] ∧
     (⟨[0, 3, 8], [10, 14]⟩ : LayerKwargs).context_lengths.length =
       ([7, 9] : Tensor1).length ∧
     (∀ i, i < ([7, 9] : Tensor1).length →
       (⟨[0, 3, 8], [10, 14]⟩ : LayerKwargs).context_lengths.getD i 0 =
         (([0, 3, 8] : Tensor1).getD (i + 1) 0 - ([0, 3, 8] : Tensor1).getD i 0) +
           ([7, 9] : Tensor1).getD i 0) ∧
     ∀ (m : Transformer) (h0 : Tensor2) (kv : KVCollection),
       runLayers m.layers h0 kv ⟨[0, 3, 8], [10, 14]⟩ =
         m.layers.foldl (fun acc blk => blk.call acc kv ⟨[0, 3, 8], [10, 14]⟩) h0) :=
  ⟨⟨rfl, by decide⟩,
   context_lengths_roundtrip [[], [7, 9]] [0, 3, 8] ⟨[0, 3, 8], [10, 14]⟩ [7, 9]
     rfl (by decide)⟩

/-- A model with one identity-attention layer, both multipliers exactly
1, used to witness the scaling-skip equivalence. -/
def wScaleModel : Transformer where
  dim := 1
  n_heads := 1
  embed_tokens := fun toks => toks.map (fun t => [(t : ℚ)])
  embedding_multiplier := 1
  layers := [⟨fun x _ _ => x, fun v => v, fun v => v, fun v => v, 1⟩]
  norm := fun v => v
  lm_head := fun v => v
  kv_collection_constructor := fun raw => raw
  return_logits := ReturnLogits.LAST_TOKEN
  logits_postprocessor := none

/-- Witness for claim C7: the always-scale run equals the skip run on a
concrete one-layer model with both multipliers 1. -/
theorem scaling_skip_identity_witness :
    (wScaleModel.embedding_multiplier = 1 ∧
     ∀ blk ∈ wScaleModel.layers, blk.residual_multiplier = 1) ∧
    wScaleModel.callScaleAlways [1, 2, 3] [[], [0]] [1] [0, 3] =
      wScaleModel.call [1, 2, 3] [[], [0]] [1] [0, 3] :=
  ⟨⟨rfl, fun blk hblk => by
      rcases List.mem_singleton.mp hblk with rfl
      rfl⟩,
   scaling_skip_identity wScaleModel [1, 2, 3] [[], [0]] [1] [0, 3] rfl
     (fun blk hblk => by
       rcases List.mem_singleton.mp hblk with rfl
       rfl)⟩

/-- Witness for claim C8 with a concrete inverse-frequency vector of
length 4 and concrete elementwise functions satisfying c 0 = 1, s 0 = 0. -/
theorem rotary_zero_positions_witness :
    (([1, 1, 1, 1] : List ℚ).length = (invFreqIota 8).length ∧
     (fun (x : ℚ) => if x = 0 then 1 else 0) 0 = 1 ∧ (fun (x : ℚ) => x) 0 = 0) ∧
    freqs_cis_base [1, 1, 1, 1] (fun x => if x = 0 then 1 else 0) (fun x => x)
        [[[0]], [[0]], [[0]]] =
      (List.replicate 3 [[List.replicate 8 (1 : ℚ)]],
       List.replicate 3 [[List.replicate 8 (0 : ℚ)]]) :=
  ⟨⟨by decide, by decide, rfl⟩,
   rotary_zero_positions [1, 1, 1, 1] (fun x => if x = 0 then 1 else 0) (fun x => x)
     (by decide) (by decide) rfl⟩

/-- A configuration with a GGUF-family quantization encoding and
attention_bias set, used to witness the build-time rejection. -/
def wBadCfg : Llama3Config :=
  ⟨NormMethod.layer_norm, none, some (), some QuantizationEncoding.Q4_K, true,
    KVCacheStrategy.PAGED⟩

/-- Witness for claim C9: a quantized encoding together with
attention_bias is rejected at construction. -/
theorem llama3_build_rejection_witness :
    wBadCfg.model_quantization_encoding.isSome = true ∧
    wBadCfg.attention_bias = true ∧
    ∃ e, buildLlama3 wBadCfg = Except.error e :=
  ⟨rfl, rfl, (llama3_build_rejection wBadCfg).1 rfl rfl⟩

/-- A minimal concrete model in VARIABLE mode used for the out-of-range
gather witness. -/
def wOverModel : Transformer where
  dim := 1
  n_heads := 1
  embed_tokens := fun toks => toks.map (fun t => [(t : ℚ)])
  embedding_multiplier := 1
  layers := []
  norm := fun v => v
  lm_head := fun v => v
  kv_collection_constructor := fun raw => raw
  return_logits := ReturnLogits.VARIABLE
  logits_postprocessor := none

/-- Witness for claim C10 at row_offsets [0,3,8] with k = 4, exceeding
the first prompt length 3: index -1 appears among the gather indices, yet
the call succeeds with 2*4 logit rows. -/
theorem variable_policy_no_bounds_check_witness :
    (wOverModel.return_logits = ReturnLogits.VARIABLE ∧
     wOverModel.logits_postprocessor = none ∧
     ([0, 3, 8] : Tensor1).length = 2 + 1 ∧
     (0 : Int) < 4 ∧
     decodeKwargs [[], [0, 0]] [0, 3, 8] = some ⟨[0, 3, 8], [3, 5]⟩ ∧
     (0 : Nat) < 2 ∧
     ([0, 3, 8] : Tensor1).getD (0 + 1) 0 - ([0, 3, 8] : Tensor1).getD 0 0 < 4) ∧
    ((([0, 3, 8] : Tensor1).getD (0 + 1) 0 - 4) ∈ varIndices [0, 3, 8] 4 ∧
     ([0, 3, 8] : Tensor1).getD (0 + 1) 0 - 4 < ([0, 3, 8] : Tensor1).getD 0 0 ∧
     ∃ lastL logitsL offs,
       wOverModel.call [10, 11, 12, 13, 14, 15, 16, 17] [[], [0, 0]] [4] [0, 3, 8] =
         some (DecodeOutput.full lastL logitsL offs) ∧
       logitsL.length = 2 * (4 : Int).toNat) :=
  ⟨⟨rfl, rfl, rfl, by decide, by decide, by decide, by decide⟩,
   variable_policy_no_bounds_check wOverModel [10, 11, 12, 13, 14, 15, 16, 17]
     [[], [0, 0]] [0, 3, 8] 4 2 0 ⟨[0, 3, 8], [3, 5]⟩ rfl rfl rfl (by decide)
     (by decide) (by decide) (by decide)⟩
